import Mathlib

/-!
Verification development for the `lox_treewalk` tree-walking interpreter.

The Rust sources are shallowly embedded: pure functions become Lean
functions, the interpreter's mutable state (environment chain, resolution
map, break flag, output) becomes explicit state passing, and potentially
diverging recursion is driven by an explicit fuel parameter.  Rust `f64`
numbers are modelled as exact rationals (`Rat`); the claims settled here
only depend on the comparison against zero and on which arm of a match is
taken, never on rounding.  `panic`/`expect`/`unreachable` branches are
modelled by a distinguished `panicked` outcome.
-/

namespace LoxTW

/-- Token kinds.  The file `token_type.rs` is not part of the provided
sources; the variant list is reconstructed from its uses in
`scanner.rs`/`parser.rs`/`interpreter.rs` and the spec's token repertoire.
It is a C-like enum deriving `PartialEq`, modelled by decidable equality. -/
inductive TokenType where
  | leftParen | rightParen | leftBrace | rightBrace
  | comma | dot | minus | plus | semicolon | colon | questionMark | star
  | bang | bangEqual | equal | equalEqual
  | greater | greaterEqual | less | lessEqual | slash
  | identifier | stringT | number
  | andT | classT | elseT | falseT | funT | forT | ifT | nilT | orT
  | printT | returnT | superT | thisT | trueT | varT | whileT | breakT
  | eof
deriving DecidableEq

/-- Literal payload of a token / literal expression, from
`lox_object.rs::LoxLiteral`.  `Number(f64)` is modelled as `Rat`. -/
inductive LoxLiteralV where
  | num (q : Rat)
  | str (s : String)
  | boolean (b : Bool)
  | nil
deriving DecidableEq

/-- Token record from `token.rs`: token type, lexeme, optional literal and
line.  There is no `id` field in `token.rs`. -/
structure Token where
  tokenType : TokenType
  lexeme : String
  literal : Option LoxLiteralV
  line : Nat
deriving DecidableEq

/-- Equality on tokens exactly as in `impl PartialEq for Token`
(`token.rs` lines 42-48): it compares the token type, the lexeme and the
line, and ignores the `literal` payload.  `impl Hash` (lines 52-58) hashes
the same three fields, so a hash map keyed by `Token` distinguishes keys
exactly up to this equality; the map model below therefore uses `tokenEq`
directly. -/
def tokenEq (t u : Token) : Bool :=
  t.tokenType == u.tokenType && t.lexeme == u.lexeme && t.line == u.line

/-- Derived `PartialEq` on `LoxLiteral` (`lox_object.rs` line 4):
structural per variant, `false` across variants. -/
def literalEq : LoxLiteralV → LoxLiteralV → Bool
  | .num a, .num b => a == b
  | .str a, .str b => a == b
  | .boolean a, .boolean b => a == b
  | .nil, .nil => true
  | _, _ => false

mutual
/-- Expression AST from `expr.rs`.  The payload structs (`Binary`,
`Grouping`, ...) are flattened into constructor fields; `Closure`'s
`params`/`body` likewise. -/
inductive Expr where
  | binary (left : Expr) (operator : Token) (right : Expr)
  | grouping (expression : Expr)
  | literal (value : LoxLiteralV)
  | unary (operator : Token) (right : Expr)
  | ternary (condition : Expr) (left : Expr) (right : Expr)
  | variableE (name : Token)
  | assign (name : Token) (value : Expr)
  | logical (left : Expr) (operator : Token) (right : Expr)
  | call (callee : Expr) (paren : Token) (arguments : List Expr)
  | closure (params : List Token) (body : List Stmt)
  | get (object : Expr) (name : Token)
  | set (object : Expr) (name : Token) (value : Expr)
  | thisE (keyword : Token)
  | superE (keyword : Token) (method : Token)

/-- Statement AST from `stmt.rs`, payload structs flattened. -/
inductive Stmt where
  | expression (e : Expr)
  | print (e : Expr)
  | var (name : Token) (initializer : Option Expr)
  | block (statements : List Stmt)
  | ifS (condition : Expr) (thenBranch : Stmt) (elseBranch : Option Stmt)
  | whileS (condition : Expr) (body : Stmt)
  | brk
  | function (name : Token) (params : List Token) (body : List Stmt)
  | ret (keyword : Token) (value : Expr)
  | classS (name : Token) (superclass : Option Expr) (methods : List Stmt)
end

/-- The parser's `return_statement` (`parser.rs` lines 263-270): the value
defaults to the literal `nil` when the source has no value expression
before the `;`, so `return;` and `return nil;` produce the same AST. -/
def returnStatementAst (keyword : Token) (value : Option Expr) : Stmt :=
  .ret keyword (value.getD (.literal .nil))

/-! ## Resolver (`resolver.rs`)

Scopes are a stack; the Rust `Vec` grows at the end and `get_cur_scope`
takes the last element, so the Lean list keeps the innermost scope at the
head.  `resolve_local` iterates `idx` from `len-1` down to `0` and records
`scopes.len() - 1 - idx`, i.e. the index from the innermost scope, which
is precisely `List.findIdx?` on the head-first list.  Scope maps and the
published `locals` map are association lists where an insert conses and a
lookup takes the first hit, which observably matches `HashMap::insert`
overwriting.  `report` output is recorded as `(line, loc, message)`
triples.  All resolver functions take a fuel argument solely to satisfy
Lean's termination checker; exhausted fuel returns the state unchanged
(the claims below always supply sufficient fuel or quantify over
successor-shaped fuel). -/

/-- Model of `FunctionType` from `resolver.rs`. -/
inductive FunctionType where
  | noneF | functionF | methodF | initializerF
deriving DecidableEq

/-- Model of `ClassType` from `resolver.rs`. -/
inductive ClassType where
  | noneC | classC | subclassC
deriving DecidableEq

/-- Association-list lookup: first binding wins (models `HashMap::get`
together with cons-as-insert). -/
def lookupAssoc {α : Type} : List (String × α) → String → Option α
  | [], _ => none
  | (k, v) :: rest, key => if k == key then some v else lookupAssoc rest key

/-- Resolver state: scope stack, current function/class context, error
flag, reported diagnostics, and the `locals` map it publishes to the
interpreter via `Interpreter::resolve`. -/
structure ResolverState where
  scopes : List (List (String × Bool))
  currentFunction : FunctionType
  currentClass : ClassType
  hadError : Bool
  errors : List (Nat × String × String)
  locals : List (Token × Nat)
deriving DecidableEq

/-- Model of `Resolver::resolver_error`: set the flag and report. -/
def resolverError (line : Nat) (loc msg : String) (st : ResolverState) : ResolverState :=
  { st with hadError := true, errors := st.errors ++ [(line, loc, msg)] }

/-- Model of `Resolver::begin_scope`. -/
def beginScope (st : ResolverState) : ResolverState :=
  { st with scopes := [] :: st.scopes }

/-- Model of `Resolver::end_scope`. -/
def endScope (st : ResolverState) : ResolverState :=
  { st with scopes := st.scopes.tail }

/-- Insert into the current (innermost) scope, as
`get_cur_scope().insert(..)`; no-op when the stack is empty (the callers
guard on emptiness where the source does). -/
def insertCurScope (name : String) (b : Bool) (st : ResolverState) : ResolverState :=
  match st.scopes with
  | [] => st
  | scope :: rest => { st with scopes := ((name, b) :: scope) :: rest }

/-- Model of `Resolver::declare` (`resolver.rs` lines 65-82). -/
def declareTok (name : Token) (st : ResolverState) : ResolverState :=
  match st.scopes with
  | [] => st
  | scope :: rest =>
    let alreadyDeclared := (lookupAssoc scope name.lexeme).isSome
    let st := { st with scopes := ((name.lexeme, false) :: scope) :: rest }
    if alreadyDeclared then
      resolverError name.line ("at \x27" ++ name.lexeme ++ "\x27")
        "Already a variable with this name in this scope." st
    else st

/-- Model of `Resolver::define` (`resolver.rs` lines 84-90). -/
def defineTok (name : Token) (st : ResolverState) : ResolverState :=
  match st.scopes with
  | [] => st
  | _ :: _ => insertCurScope name.lexeme true st

/-- Model of `Resolver::resolve_local` (`resolver.rs` lines 92-100): find the
innermost scope containing the lexeme and publish
`interpreter.resolve(token, depth)`; no entry when the reference is
global. -/
def resolveLocal (name : Token) (st : ResolverState) : ResolverState :=
  match st.scopes.findIdx? (fun scope => (lookupAssoc scope name.lexeme).isSome) with
  | some depth => { st with locals := (name, depth) :: st.locals }
  | none => st

mutual
/-- Model of `Resolver`'s `ExprVisitor` impl, one arm per `visit_*_expr`. -/
def resolveExpr : Nat → Expr → ResolverState → ResolverState
  | 0, _, st => st
  | fuel + 1, e, st =>
    match e with
    | .binary l _ r => resolveExpr fuel r (resolveExpr fuel l st)
    | .grouping inner => resolveExpr fuel inner st
    | .literal _ => st
    | .unary _ r => resolveExpr fuel r st
    | .ternary c l r => resolveExpr fuel r (resolveExpr fuel l (resolveExpr fuel c st))
    | .variableE name =>
      let st :=
        match st.scopes with
        | [] => st
        | scope :: _ =>
          if lookupAssoc scope name.lexeme == some false then
            resolverError name.line ("at \x27" ++ name.lexeme ++ "\x27")
              "Can\x27t read local variable in its own initializer." st
          else st
      resolveLocal name st
    | .assign name value => resolveLocal name (resolveExpr fuel value st)
    | .logical l _ r => resolveExpr fuel r (resolveExpr fuel l st)
    | .call callee _ args => resolveExprs fuel args (resolveExpr fuel callee st)
    | .closure params body => resolveFunction fuel params body .functionF st
    | .get obj _ => resolveExpr fuel obj st
    | .set obj _ value => resolveExpr fuel obj (resolveExpr fuel value st)
    | .thisE keyword =>
      let st :=
        if st.currentClass == .noneC then
          resolverError keyword.line "at \x27this\x27"
            "Can\x27t use \x27this\x27 outside of a class." st
        else st
      resolveLocal keyword st
    | .superE keyword _ =>
      match st.currentClass with
      | .noneC =>
        resolverError keyword.line "at \x27super\x27"
          "Can\x27t use \x27super\x27 outside of a class." st
      | .classC =>
        resolverError keyword.line "at \x27super\x27"
          "Can\x27t use \x27super\x27 in a class with no superclass." st
      | .subclassC => resolveLocal keyword st

/-- Call-argument loop from `visit_call_expr`. -/
def resolveExprs : Nat → List Expr → ResolverState → ResolverState
  | 0, _, st => st
  | _ + 1, [], st => st
  | fuel + 1, e :: rest, st => resolveExprs fuel rest (resolveExpr fuel e st)

/-- Model of `Resolver::resolve_function` (`resolver.rs` lines 102-115). -/
def resolveFunction :
    Nat → List Token → List Stmt → FunctionType → ResolverState → ResolverState
  | 0, _, _, _, st => st
  | fuel + 1, params, body, functionType, st =>
    let enclosingFunction := st.currentFunction
    let st := { st with currentFunction := functionType }
    let st := beginScope st
    let st := params.foldl (fun st p => defineTok p (declareTok p st)) st
    let st := resolveStmts fuel body st
    let st := endScope st
    { st with currentFunction := enclosingFunction }

/-- Model of `Resolver::resolve_statements`. -/
def resolveStmts : Nat → List Stmt → ResolverState → ResolverState
  | 0, _, st => st
  | _ + 1, [], st => st
  | fuel + 1, s :: rest, st => resolveStmts fuel rest (resolveStmt fuel s st)

/-- Method loop of `visit_class_stmt`: each `Stmt::Function` member is
resolved as a `Method`, or as an `Initializer` when named `init`. -/
def resolveMethods : Nat → List Stmt → ResolverState → ResolverState
  | 0, _, st => st
  | _ + 1, [], st => st
  | fuel + 1, m :: rest, st =>
    let st :=
      match m with
      | .function fname fparams fbody =>
        let declaration :=
          if fname.lexeme == "init" then FunctionType.initializerF
          else FunctionType.methodF
        resolveFunction fuel fparams fbody declaration st
      | _ => st
    resolveMethods fuel rest st

/-- Model of `Resolver`'s `StmtVisitor` impl, one arm per `visit_*_stmt`. -/
def resolveStmt : Nat → Stmt → ResolverState → ResolverState
  | 0, _, st => st
  | fuel + 1, s, st =>
    match s with
    | .expression e => resolveExpr fuel e st
    | .print e => resolveExpr fuel e st
    | .var name initializer =>
      let st := declareTok name st
      let st :=
        match initializer with
        | some init => resolveExpr fuel init st
        | none => st
      defineTok name st
    | .block statements => endScope (resolveStmts fuel statements (beginScope st))
    | .ifS condition thenBranch elseBranch =>
      let st := resolveStmt fuel thenBranch (resolveExpr fuel condition st)
      match elseBranch with
      | some els => resolveStmt fuel els st
      | none => st
    | .whileS condition body => resolveStmt fuel body (resolveExpr fuel condition st)
    | .brk => st
    | .function name params body =>
      let st := defineTok name (declareTok name st)
      resolveFunction fuel params body .functionF st
    | .ret keyword value =>
      let st :=
        if st.currentFunction == .noneF then
          resolverError keyword.line "at \x27return\x27"
            "Can\x27t return from top-level code." st
        else st
      match value with
      | .literal lit =>
        if literalEq lit .nil then st
        else if st.currentFunction == .initializerF then
          resolverError keyword.line "at \x27return"
            "Can\x27t return a value from an initializer." st
        else resolveExpr fuel value st
      | _ =>
        if st.currentFunction == .initializerF then
          resolverError keyword.line "at \x27return"
            "Can\x27t return a value from an initializer." st
        else resolveExpr fuel value st
    | .classS name superclass methods =>
      let enclosingClass := st.currentClass
      let st := { st with currentClass := .classC }
      let st := defineTok name (declareTok name st)
      let st :=
        match superclass with
        | some scExpr =>
          let st :=
            match scExpr with
            | .variableE scName =>
              if name.lexeme == scName.lexeme then
                resolverError scName.line ("at \x27" ++ scName.lexeme ++ "\x27")
                  "A class can\x27t inherit from itself" st
              else st
            | _ => st
          let st := { st with currentClass := .subclassC }
          let st := resolveExpr fuel scExpr st
          let st := beginScope st
          insertCurScope "super" true st
        | none => st
      let st := beginScope st
      let st := insertCurScope "this" true st
      let st := resolveMethods fuel methods st
      let st := endScope st
      let st := if superclass.isSome then endScope st else st
      { st with currentClass := enclosingClass }
end

/-- Fresh resolver state, as `Resolver::new`. -/
def initResolverState : ResolverState :=
  { scopes := [], currentFunction := .noneF, currentClass := .noneC,
    hadError := false, errors := [], locals := [] }

/-- Run the resolver over a program with ample fuel
(`Resolver::resolve_statements` from `main.rs::run`). -/
def resolveProgram (statements : List Stmt) : ResolverState :=
  resolveStmts 64 statements initResolverState

/-! ## Runtime values (`lox_object.rs`, `lox_function.rs`, `lox_class.rs`,
`lox_instance.rs`, `native_function.rs`)

`Rc<RefCell<LoxInstance>>` references are modelled as addresses into an
instance heap; `Rc<RefCell<Environment>>` references as addresses into an
environment heap (below).  Rust's derived `PartialEq` compares through
`Rc`/`RefCell` by value, so the equality functions here dereference the
heap. -/

/-- Model of `Closure` payload as stored inside a `LoxFunction` (`expr.rs`
`Closure` struct). -/
structure ClosureV where
  params : List Token
  body : List Stmt

/-- Model of `impl PartialEq for Closure` (`expr.rs` lines 186-190): constantly
`false`. -/
def closureEqV : ClosureV → ClosureV → Bool := fun _ _ => false

/-- Model of `LoxFunction` (`lox_function.rs` lines 11-19); `context` is the
captured-environment reference, modelled as a heap address. -/
structure LoxFunctionV where
  declaration : ClosureV
  context : Nat
  arity : Nat
  name : Option String
  repr : String
  isInit : Bool

/-- Derived `PartialEq` for `LoxFunction`: fields in declaration order
with short-circuit `&&`.  The first conjunct compares the `Closure`
declarations, which is constantly `false`, so the remaining conjuncts
(including the environment contents behind `context`, which this model
compares only by address) are never evaluated. -/
def loxFunctionEq (f g : LoxFunctionV) : Bool :=
  closureEqV f.declaration g.declaration && f.context == g.context
    && f.arity == g.arity && f.name == g.name && f.repr == g.repr
    && f.isInit == g.isInit

/-- Model of `LoxClass` (`lox_class.rs` lines 8-12): name, optional superclass
(held by value through `Rc`), method table. -/
inductive ClassV where
  | mk (name : String) (superclass : Option ClassV)
      (methods : List (String × LoxFunctionV))

/-- Class name accessor. -/
def ClassV.name : ClassV → String
  | .mk n _ _ => n

/-- Class method-table accessor. -/
def ClassV.methods : ClassV → List (String × LoxFunctionV)
  | .mk _ _ m => m

/-- Model of `HashMap` equality specialised to a `Bool` value comparison: equal
sizes, and every key of the left map is present in the right with an
equal value. -/
def mapEqBy {α : Type} (eqV : α → α → Bool) (m₁ m₂ : List (String × α)) : Bool :=
  m₁.length == m₂.length
    && m₁.all (fun p =>
      match lookupAssoc m₂ p.1 with
      | some w => eqV p.2 w
      | none => false)

/-- Derived `PartialEq` for `LoxClass`: name, superclass (through `Rc`,
by value), then the methods map compared with `loxFunctionEq`. -/
def classEq : ClassV → ClassV → Bool
  | .mk n₁ sc₁ m₁, .mk n₂ sc₂ m₂ =>
    n₁ == n₂
      && (match sc₁, sc₂ with
        | none, none => true
        | some c, some d => classEq c d
        | _, _ => false)
      && mapEqBy loxFunctionEq m₁ m₂

/-- Model of `LoxCallable` as used by `interpreter.rs`/`lox_object.rs`: an enum
with `NativeFun`, `Function` and `Class` variants (the `lox_callable.rs`
snapshot in the tree is an earlier milestone; the variant shape is
reconstructed from its uses and the spec's Callable model).  The native
function pointer is modelled as a numeric tag compared by identity, which
matches `fn` pointer comparison. -/
inductive CallableV where
  | nativeFun (fnTag : Nat) (arity : Nat) (repr : String)
  | functionV (f : LoxFunctionV)
  | classV (c : ClassV)

/-- Derived `PartialEq` for the callable enum: same-variant structural
comparison, `false` across variants. -/
def callableEq : CallableV → CallableV → Bool
  | .nativeFun t₁ a₁ r₁, .nativeFun t₂ a₂ r₂ => t₁ == t₂ && a₁ == a₂ && r₁ == r₂
  | .functionV f, .functionV g => loxFunctionEq f g
  | .classV c, .classV d => classEq c d
  | _, _ => false

/-- Model of `LoxObject` (`lox_object.rs` lines 23-28).  `Instance` holds an
`Rc<RefCell<LoxInstance>>`, modelled as an address into the instance
heap. -/
inductive LoxObjectV where
  | literal (l : LoxLiteralV)
  | callable (c : CallableV)
  | inst (addr : Nat)

/-- Model of `LoxInstance` (`lox_instance.rs` lines 10-14): class held by value,
mutable field map. -/
structure InstanceV where
  klass : ClassV
  fields : List (String × LoxObjectV)

/-- The instance heap: address `i` is the `i`-th allocated instance. -/
abbrev InstHeap := List InstanceV

mutual
/-- Derived `PartialEq` for `LoxObject`: structural per variant, `false`
across variants.  The `Instance` arm dereferences both `Rc<RefCell<..>>`
values and compares the instances by value (`Rc`/`RefCell` `PartialEq`
forward to the contents), so it recurses through the heap; the fuel
models the possible divergence of that recursion on cyclic instances
(`none` = out of fuel).  A dangling address cannot arise in the real
program and is also mapped to `none`. -/
def objEq : Nat → InstHeap → LoxObjectV → LoxObjectV → Option Bool
  | 0, _, _, _ => none
  | _ + 1, _, .literal l₁, .literal l₂ => some (literalEq l₁ l₂)
  | _ + 1, _, .callable c₁, .callable c₂ => some (callableEq c₁ c₂)
  | fuel + 1, h, .inst a, .inst b =>
    match h.get? a, h.get? b with
    | some i, some j =>
      if classEq i.klass j.klass then
        if i.fields.length == j.fields.length then fieldsEq fuel h i.fields j.fields
        else some false
      else some false
    | _, _ => none
  | _ + 1, _, _, _ => some false

/-- Field-map part of the derived `LoxInstance` equality (`HashMap`
`PartialEq`): every key of the left map must be present in the right with
an equal value; sizes were compared by the caller. -/
def fieldsEq : Nat → InstHeap → List (String × LoxObjectV) → List (String × LoxObjectV) → Option Bool
  | 0, _, _, _ => none
  | _ + 1, _, [], _ => some true
  | fuel + 1, h, (k, v) :: rest, m₂ =>
    match lookupAssoc m₂ k with
    | none => some false
    | some w =>
      match objEq fuel h v w with
      | none => none
      | some false => some false
      | some true => fieldsEq fuel h rest m₂
end

/-- Textual form of a literal, from `impl Display for LoxLiteral`
(`lox_object.rs` lines 12-21).  Number formatting stands in for Rust's
`f64` `Display`; the claims below only depend on every consumer using
this same function. -/
def displayLiteral : LoxLiteralV → String
  | .num q => if q.den == 1 then toString q.num else toString q.num ++ "/" ++ toString q.den
  | .str s => s
  | .boolean b => if b then "true" else "false"
  | .nil => "nil"

/-- Textual form of a callable, from the `Display` impls of
`LoxFunction`/`NativeFunction` (their stored `repr`) and `LoxClass` (its
name). -/
def displayCallable : CallableV → String
  | .nativeFun _ _ repr => repr
  | .functionV f => f.repr
  | .classV c => c.name

/-- Textual form of a runtime value, from `impl Display for LoxObject`
(`lox_object.rs` lines 30-38) and `impl Display for LoxInstance`
(`lox_instance.rs` lines 49-53).  This is exactly what
`visit_print_stmt`'s `println` emits.  A dangling instance address cannot
arise; it falls back to `"instance"`. -/
def displayObject (h : InstHeap) : LoxObjectV → String
  | .literal l => displayLiteral l
  | .callable c => displayCallable c
  | .inst a =>
    match h.get? a with
    | some i => i.klass.name ++ " instance"
    | none => "instance"

/-- Runtime exception (`lox_exception.rs`): a runtime error or a
`Return` unwind signal. -/
inductive LoxExceptionV where
  | runtimeError (line : Nat) (message : String)
  | ret (value : LoxObjectV)

/-- Result of a pure evaluation step: a value, a raised runtime error, a
`panic` (an `expect`/`unreachable!` branch), or fuel exhaustion. -/
inductive PureRes where
  | ok (v : LoxObjectV)
  | rtErr (line : Nat) (message : String)
  | panicked
  | fuelOut

/-- Operand test used to phrase the `+` cases: is the value a string
literal? -/
def isStringObj : LoxObjectV → Bool
  | .literal (.str _) => true
  | _ => false

/-- Operand test: is the value a number literal? -/
def isNumObj : LoxObjectV → Bool
  | .literal (.num _) => true
  | _ => false

/-- The operator dispatch of `Interpreter::visit_binary_expr`
(`interpreter.rs` lines 125-236) after both operands have been
evaluated.  Each arm is translated literally, including the
divide-by-zero check in the `Slash` arm (lines 136-151), the four-case
`Plus` arm (lines 162-183) whose mixed cases stringify the non-string
operand with the same `Display` used by `print`, and the
`BangEqual`/`EqualEqual` arms using the derived `PartialEq`. -/
def binaryOpResult (fuel : Nat) (h : InstHeap) (op : TokenType) (line : Nat)
    (left right : LoxObjectV) : PureRes :=
  match op with
  | .minus =>
    match left, right with
    | .literal (.num a), .literal (.num b) => .ok (.literal (.num (a - b)))
    | _, _ => .rtErr line "Operands must be numbers."
  | .slash =>
    match left, right with
    | .literal (.num a), .literal (.num b) =>
      if b = 0 then .rtErr line "Cannot divide by zero."
      else .ok (.literal (.num (a / b)))
    | _, _ => .rtErr line "Operands must be numbers."
  | .star =>
    match left, right with
    | .literal (.num a), .literal (.num b) => .ok (.literal (.num (a * b)))
    | _, _ => .rtErr line "Operands must be numbers."
  | .plus =>
    match left, right with
    | .literal (.num a), .literal (.num b) => .ok (.literal (.num (a + b)))
    | .literal (.str a), .literal (.str b) => .ok (.literal (.str (a ++ b)))
    | .literal (.str a), r => .ok (.literal (.str (a ++ displayObject h r)))
    | l, .literal (.str b) => .ok (.literal (.str (displayObject h l ++ b)))
    | _, _ => .rtErr line "Operands must be two numbers or one must be a string."
  | .greater =>
    match left, right with
    | .literal (.num a), .literal (.num b) => .ok (.literal (.boolean (a > b)))
    | _, _ => .rtErr line "Operands must be numbers."
  | .greaterEqual =>
    match left, right with
    | .literal (.num a), .literal (.num b) => .ok (.literal (.boolean (a ≥ b)))
    | _, _ => .rtErr line "Operands must be numbers."
  | .less =>
    match left, right with
    | .literal (.num a), .literal (.num b) => .ok (.literal (.boolean (a < b)))
    | _, _ => .rtErr line "Operands must be numbers."
  | .lessEqual =>
    match left, right with
    | .literal (.num a), .literal (.num b) => .ok (.literal (.boolean (a ≤ b)))
    | _, _ => .rtErr line "Operands must be numbers."
  | .bangEqual =>
    match objEq fuel h left right with
    | some b => .ok (.literal (.boolean (!b)))
    | none => .fuelOut
  | .equalEqual =>
    match objEq fuel h left right with
    | some b => .ok (.literal (.boolean b))
    | none => .fuelOut
  | .comma => .ok right
  | _ => .panicked

/-- The outcome handling of `LoxFunction::call` (`lox_function.rs` lines
61-71), with the execution of the body abstracted as its outcome.
`contextValues` is the value map of the function's captured environment
`self.context`; `get_at(0, "this")` reads it directly, and its `expect`
is the `panicked` case. -/
def loxFunctionCallResult (isInit : Bool)
    (contextValues : List (String × LoxObjectV))
    (bodyOutcome : Except LoxExceptionV Unit) : PureRes :=
  match bodyOutcome with
  | .ok _ =>
    if isInit then
      match lookupAssoc contextValues "this" with
      | some v => .ok v
      | none => .panicked
    else .ok (.literal .nil)
  | .error (.runtimeError line message) => .rtErr line message
  | .error (.ret value) =>
    if isInit then
      match lookupAssoc contextValues "this" with
      | some v => .ok v
      | none => .panicked
    else .ok value

/-! ## Diagnostics formatting (`lib.rs`, `lox_exception.rs`, `main.rs`) -/

/-- Output channel of a diagnostic: `eprintln` writes to stderr,
`println` to stdout. -/
inductive Channel where
  | stdout | stderr
deriving DecidableEq

/-- The line `report` emits (`lib.rs` lines 79-81):
`eprintln!("[line {line} ] Error {loc}: {message}")` — note the space
between the line number and the closing bracket. -/
def reportLine (line : Nat) (loc message : String) : String :=
  "[line " ++ toString line ++ " ] Error " ++ loc ++ ": " ++ message

/-- The channel `report` uses: `eprintln` = stderr. -/
def reportChannel : Channel := .stderr

/-- Model of `impl Display for RuntimeError` (`lox_exception.rs` lines 31-35). -/
def runtimeErrorLine (line : Nat) (message : String) : String :=
  "[line " ++ toString line ++ "] RuntimeError: " ++ message

/-- The channel the driver prints a runtime error on: `main.rs::run`
(lines 77-83) uses `println!("{error}")`, i.e. stdout. -/
def runtimeErrorChannel : Channel := .stdout

/-- The static-diagnostic line shape asserted by the spec
(`[line N] Error <loc>: <message>`), for comparison with `reportLine`. -/
def specStaticLine (line : Nat) (loc message : String) : String :=
  "[line " ++ toString line ++ "] Error " ++ loc ++ ": " ++ message

/-! ## Interpreter (`interpreter.rs`, `environment.rs`)

Environments (`Rc<RefCell<Environment>>`) live in a heap list; a
reference is an address, `enclosing` an optional address.  The
interpreter state carries the heap, the current-environment reference,
the `locals` map published by the resolver, the `active_break` flag and
the accumulated `print` output (one entry per `print`).  `globals` is
address `0`.  Execution is fuelled; every recursive call steps the fuel
down, so running out of fuel (`fuelOut`) models non-termination.  The
embedded fragment covers literals, grouping, unary, binary, ternary,
variable, assignment and logical expressions and expression, print, var,
block, if, while, break and return statements; the remaining AST nodes
(calls, property access, `this`/`super`, closure construction, function
and class declarations) evaluate to the `unsupported` outcome, marking
the model's boundary. -/

/-- One environment of `environment.rs`: value map and optional enclosing
reference. -/
structure Frame where
  values : List (String × LoxObjectV)
  enclosing : Option Nat

/-- Interpreter state (`Interpreter` struct plus the shared heaps). -/
structure InterpState where
  envs : List Frame
  curEnv : Nat
  locals : List (Token × Nat)
  activeBreak : Bool
  output : List String
  instHeap : InstHeap

/-- Outcome of executing a statement or evaluating an expression:
normal result with the new state, a propagating `LoxException`, a panic
(`expect`/`unreachable!`), an AST node outside the embedded fragment, or
fuel exhaustion. -/
inductive Outcome (α : Type) where
  | ok (a : α) (s : InterpState)
  | exn (e : LoxExceptionV) (s : InterpState)
  | panicked (s : InterpState)
  | unsupported (s : InterpState)
  | fuelOut

/-- Model of `Interpreter::is_truthy` (`interpreter.rs` lines 98-104). -/
def truthy : LoxObjectV → Bool
  | .literal .nil => false
  | .literal (.boolean b) => b
  | _ => true

/-- Lookup in the `locals` map (`self.locals.get(name)`): the `HashMap`
is keyed by `Token` equality/hash, i.e. `tokenEq`; an insert conses, so
the first hit is the most recent insert. -/
def lookupLocals : List (Token × Nat) → Token → Option Nat
  | [], _ => none
  | (k, d) :: rest, tok => if tokenEq k tok then some d else lookupLocals rest tok

/-- Walk `n` `enclosing` links from environment `idx`
(`Environment::ancestor`'s traversal: `self.enclosing` is one link, then
`distance - 1` further links); `none` when a link is missing, which is
the `expect` panic. -/
def walkEnclosing (envs : List Frame) : Nat → Nat → Option Nat
  | idx, 0 => some idx
  | idx, n + 1 =>
    match envs.get? idx with
    | some f =>
      match f.enclosing with
      | some e => walkEnclosing envs e n
      | none => none
    | none => none

/-- Model of `Environment::get_at` (`environment.rs` lines 39-53): at distance 0
read the current map directly, otherwise read the map of
`ancestor(distance)`; a missing binding or a missing `enclosing` link is
the `expect` panic (`none`). -/
def getAt (envs : List Frame) (cur : Nat) (distance : Nat) (name : String) :
    Option LoxObjectV :=
  match walkEnclosing envs cur distance with
  | some idx =>
    match envs.get? idx with
    | some f => lookupAssoc f.values name
    | none => none
  | none => none

/-- Insert into the value map of environment `idx` (`HashMap::insert`,
cons-as-overwrite). -/
def setFrameValue (envs : List Frame) (idx : Nat) (name : String)
    (v : LoxObjectV) : List Frame :=
  match envs.get? idx with
  | some f => envs.set idx { f with values := (name, v) :: f.values }
  | none => envs

/-- Model of `Environment::assign_at` (`environment.rs` lines 91-106): at distance
0 insert into the current map, otherwise into the map of
`ancestor(distance)`; only a missing `enclosing` link panics (`none`) —
the insert itself always succeeds. -/
def assignAt (envs : List Frame) (cur : Nat) (distance : Nat) (name : String)
    (v : LoxObjectV) : Option (List Frame) :=
  match walkEnclosing envs cur distance with
  | some idx => some (setFrameValue envs idx name v)
  | none => none

/-- Model of `Environment::get` (`environment.rs` lines 26-37): look up the lexeme
in the current map, else recurse into `enclosing`, else raise the
"Undefined variable" runtime error.  Fuelled against (impossible)
cyclic chains; `none` = fuel out or dangling reference. -/
def envGet (envs : List Frame) : Nat → Nat → Token →
    Option (Except LoxExceptionV LoxObjectV)
  | 0, _, _ => none
  | fuel + 1, idx, name =>
    match envs.get? idx with
    | none => none
    | some f =>
      match lookupAssoc f.values name.lexeme with
      | some v => some (.ok v)
      | none =>
        match f.enclosing with
        | some e => envGet envs fuel e name
        | none =>
          some (.error (.runtimeError name.line
            ("Undefined variable \x27" ++ name.lexeme ++ "\x27.")))

/-- Model of `Environment::assign` (`environment.rs` lines 65-89): overwrite where
the lexeme is bound, walking `enclosing`; error when unbound
everywhere. -/
def envAssign (v : LoxObjectV) : Nat → List Frame → Nat → Token →
    Option (Except LoxExceptionV (List Frame))
  | 0, _, _, _ => none
  | fuel + 1, envs, idx, name =>
    match envs.get? idx with
    | none => none
    | some f =>
      if (lookupAssoc f.values name.lexeme).isSome then
        some (.ok (setFrameValue envs idx name.lexeme v))
      else
        match f.enclosing with
        | some e => envAssign v fuel envs e name
        | none =>
          some (.error (.runtimeError name.line
            ("Undefined variable \x27" ++ name.lexeme ++ "\x27.")))

/-- Model of `Interpreter::look_up_variable` (`interpreter.rs` lines 106-114):
with a resolver-recorded depth, `get_at` on the current environment
(panicking when it misses); otherwise a dynamic lookup in globals. -/
def lookUpVariable (fuel : Nat) (name : Token) (s : InterpState) :
    Outcome LoxObjectV :=
  match lookupLocals s.locals name with
  | some distance =>
    match getAt s.envs s.curEnv distance name.lexeme with
    | some v => .ok v s
    | none => .panicked s
  | none =>
    match envGet s.envs (fuel + 1) 0 name with
    | some (.ok v) => .ok v s
    | some (.error e) => .exn e s
    | none => .fuelOut

mutual
/-- Model of `Interpreter`'s `ExprVisitor` impl restricted to the embedded
fragment; each arm mirrors the corresponding `visit_*_expr`. -/
def evalE : Nat → Expr → InterpState → Outcome LoxObjectV
  | 0, _, _ => .fuelOut
  | fuel + 1, e, s =>
    match e with
    | .literal l => .ok (.literal l) s
    | .grouping inner => evalE fuel inner s
    | .unary op right =>
      match evalE fuel right s with
      | .ok v s₁ =>
        match op.tokenType with
        | .minus =>
          match v with
          | .literal (.num q) => .ok (.literal (.num (-q))) s₁
          | _ => .exn (.runtimeError op.line "Operand must be a number.") s₁
        | .bang => .ok (.literal (.boolean (!truthy v))) s₁
        | _ => .panicked s₁
      | other => other
    | .binary left op right =>
      match evalE fuel left s with
      | .ok lv s₁ =>
        match evalE fuel right s₁ with
        | .ok rv s₂ =>
          match binaryOpResult fuel s₂.instHeap op.tokenType op.line lv rv with
          | .ok v => .ok v s₂
          | .rtErr line msg => .exn (.runtimeError line msg) s₂
          | .panicked => .panicked s₂
          | .fuelOut => .fuelOut
        | other => other
      | other => other
    | .ternary cond l r =>
      match evalE fuel cond s with
      | .ok cv s₁ => if truthy cv then evalE fuel l s₁ else evalE fuel r s₁
      | other => other
    | .variableE name => lookUpVariable fuel name s
    | .assign name value =>
      match evalE fuel value s with
      | .ok v s₁ =>
        match lookupLocals s₁.locals name with
        | some distance =>
          match assignAt s₁.envs s₁.curEnv distance name.lexeme v with
          | some envs' => .ok v { s₁ with envs := envs' }
          | none => .panicked s₁
        | none =>
          match envAssign v (fuel + 1) s₁.envs 0 name with
          | some (.ok envs') => .ok v { s₁ with envs := envs' }
          | some (.error ex) => .exn ex s₁
          | none => .fuelOut
      | other => other
    | .logical left op right =>
      match evalE fuel left s with
      | .ok lv s₁ =>
        match op.tokenType with
        | .orT => if truthy lv then .ok lv s₁ else evalE fuel right s₁
        | .andT => if !truthy lv then .ok lv s₁ else evalE fuel right s₁
        | _ => evalE fuel right s₁
      | other => other
    | .call _ _ _ => .unsupported s
    | .closure _ _ => .unsupported s
    | .get _ _ => .unsupported s
    | .set _ _ _ => .unsupported s
    | .thisE _ => .unsupported s
    | .superE _ _ => .unsupported s

/-- Model of `Interpreter`'s `StmtVisitor` impl restricted to the embedded
fragment; each arm mirrors the corresponding `visit_*_stmt`. -/
def execS : Nat → Stmt → InterpState → Outcome Unit
  | 0, _, _ => .fuelOut
  | fuel + 1, stmt, s =>
    match stmt with
    | .expression e =>
      match evalE fuel e s with
      | .ok _ s₁ => .ok () s₁
      | .exn ex s₁ => .exn ex s₁
      | .panicked s₁ => .panicked s₁
      | .unsupported s₁ => .unsupported s₁
      | .fuelOut => .fuelOut
    | .print e =>
      match evalE fuel e s with
      | .ok v s₁ => .ok () { s₁ with output := s₁.output ++ [displayObject s₁.instHeap v] }
      | .exn ex s₁ => .exn ex s₁
      | .panicked s₁ => .panicked s₁
      | .unsupported s₁ => .unsupported s₁
      | .fuelOut => .fuelOut
    | .var name initializer =>
      let evaluated :=
        match initializer with
        | some init => evalE fuel init s
        | none => .ok (.literal .nil) s
      match evaluated with
      | .ok v s₁ => .ok () { s₁ with envs := setFrameValue s₁.envs s₁.curEnv name.lexeme v }
      | .exn ex s₁ => .exn ex s₁
      | .panicked s₁ => .panicked s₁
      | .unsupported s₁ => .unsupported s₁
      | .fuelOut => .fuelOut
    | .block statements =>
      let newIdx := s.envs.length
      let s₁ := { s with envs := s.envs ++ [Frame.mk [] (some s.curEnv)] }
      execBlockGo fuel s₁.curEnv statements { s₁ with curEnv := newIdx }
    | .ifS condition thenBranch elseBranch =>
      match evalE fuel condition s with
      | .ok cv s₁ =>
        if truthy cv then
          match execS fuel thenBranch s₁ with
          | .ok _ s₂ => .ok () s₂
          | other => other
        else
          match elseBranch with
          | some els =>
            match execS fuel els s₁ with
            | .ok _ s₂ => .ok () s₂
            | other => other
          | none => .ok () s₁
      | .exn ex s₁ => .exn ex s₁
      | .panicked s₁ => .panicked s₁
      | .unsupported s₁ => .unsupported s₁
      | .fuelOut => .fuelOut
    | .whileS condition body => whileGo fuel condition body s
    | .brk => .ok () { s with activeBreak := true }
    | .ret _ value =>
      match evalE fuel value s with
      | .ok v s₁ => .exn (.ret v) s₁
      | .exn ex s₁ => .exn ex s₁
      | .panicked s₁ => .panicked s₁
      | .unsupported s₁ => .unsupported s₁
      | .fuelOut => .fuelOut
    | .function _ _ _ => .unsupported s
    | .classS _ _ _ => .unsupported s

/-- The statement loop of `Interpreter::execute_block` (`interpreter.rs`
lines 69-92), with `prev` the environment reference saved at entry:
before each statement the `active_break` flag is checked and the
remaining statements are skipped when it is set; a propagating
`LoxException` restores the previous environment before re-raising; on
normal exit the previous environment is restored.  A panic aborts the
process, so nothing is restored on that path. -/
def execBlockGo : Nat → Nat → List Stmt → InterpState → Outcome Unit
  | 0, _, _, _ => .fuelOut
  | _ + 1, prev, [], s => .ok () { s with curEnv := prev }
  | fuel + 1, prev, stmt :: rest, s =>
    if s.activeBreak then .ok () { s with curEnv := prev }
    else
      match execS fuel stmt s with
      | .ok _ s₁ => execBlockGo fuel prev rest s₁
      | .exn ex s₁ => .exn ex { s₁ with curEnv := prev }
      | .panicked s₁ => .panicked s₁
      | .unsupported s₁ => .unsupported s₁
      | .fuelOut => .fuelOut

/-- The loop of `Interpreter::visit_while_stmt` (`interpreter.rs` lines
469-482): evaluate the condition; when falsy leave the loop; otherwise
execute the body and leave the loop when `active_break` is set;
on leaving the loop (either way) clear `active_break` and return `Ok`.
Errors propagate via `?` without touching the flag. -/
def whileGo : Nat → Expr → Stmt → InterpState → Outcome Unit
  | 0, _, _, _ => .fuelOut
  | fuel + 1, condition, body, s =>
    match evalE fuel condition s with
    | .ok cv s₁ =>
      if truthy cv then
        match execS fuel body s₁ with
        | .ok _ s₂ =>
          if s₂.activeBreak then .ok () { s₂ with activeBreak := false }
          else whileGo fuel condition body s₂
        | .exn ex s₂ => .exn ex s₂
        | .panicked s₂ => .panicked s₂
        | .unsupported s₂ => .unsupported s₂
        | .fuelOut => .fuelOut
      else .ok () { s₁ with activeBreak := false }
    | .exn ex s₁ => .exn ex s₁
    | .panicked s₁ => .panicked s₁
    | .unsupported s₁ => .unsupported s₁
    | .fuelOut => .fuelOut
end

/-- Model of `Interpreter::execute_block` (`interpreter.rs` lines 69-92): save the
current environment reference, switch to the given one, run the
statements, restore. -/
def execBlock (fuel : Nat) (statements : List Stmt) (envIdx : Nat)
    (s : InterpState) : Outcome Unit :=
  execBlockGo fuel s.curEnv statements { s with curEnv := envIdx }

/-- The globals environment as built by `Interpreter::new`
(`interpreter.rs` lines 27-52): no enclosing, `clock` pre-defined as a
native function of arity 0 displayed `<native fn>`. -/
def globalsFrame : Frame :=
  { values := [("clock", .callable (.nativeFun 0 0 "<native fn>"))], enclosing := none }

/-- Fresh interpreter state with the `locals` map published by the
resolver. -/
def mkInterpState (locals : List (Token × Nat)) : InterpState :=
  { envs := [globalsFrame], curEnv := 0, locals := locals,
    activeBreak := false, output := [], instHeap := [] }

/-- Discriminator: did execution hit a panic branch? -/
def Outcome.isPanic {α : Type} : Outcome α → Bool
  | .panicked _ => true
  | _ => false

/-! ## Concrete programs used by the claims -/

/-- The identifier token `a` at line 1.  `Token::new` takes no position
beyond the line, so every occurrence of `a` on line 1 — whatever its
column — is this same value. -/
def tokA : Token := { tokenType := .identifier, lexeme := "a", literal := none, line := 1 }

/-- AST of the single-line program `{var a = 1; {print a;} print a;}`:
an outer block declaring `a`, an inner block reading `a` (depth 1), and a
final read of `a` in the outer block (depth 0).  All three `a` tokens are
the value `tokA`. -/
def shadowProgFull : List Stmt :=
  [ .block
      [ .var tokA (some (.literal (.num 1))),
        .block [ .print (.variableE tokA) ],
        .print (.variableE tokA) ] ]

/-- The same program without the final outer read:
`{var a = 1; {print a;}}`. -/
def shadowProgInner : List Stmt :=
  [ .block
      [ .var tokA (some (.literal (.num 1))),
        .block [ .print (.variableE tokA) ] ] ]

/-- The outer block of `shadowProgFull` as a single statement. -/
def shadowStmt : Stmt :=
  .block
    [ .var tokA (some (.literal (.num 1))),
      .block [ .print (.variableE tokA) ],
      .print (.variableE tokA) ]

/-! ## C1 — token identity and the resolution map -/

/-- C1 counterexample.  The two reads of `a` in
`{var a = 1; {print a;} print a;}` sit at different source positions on
the same line, yet both are the token value `tokA` (`Token` carries no
`id`), hence the same key of the resolution map: resolving the program
without the outer read records distance 1 for the inner read, while
resolving the full program leaves that same key at distance 0 — the
later, textually identical token overwrote the inner read's entry, so
the recorded distance is not independent as claimed. -/
theorem c1_same_line_tokens_share_key :
    tokenEq tokA tokA = true
    ∧ lookupLocals (resolveProgram shadowProgInner).locals tokA = some 1
    ∧ lookupLocals (resolveProgram shadowProgFull).locals tokA = some 0 := by
  refine ⟨by decide, by decide, by decide⟩

/-- C1 (amended): tokens carry no id; the equality and hashing that key
the resolution map compare exactly the token type, the lexeme and the
line.  Identically-spelled identifier tokens on different lines are
therefore distinct keys, but two at different positions on the same line
are the same key. -/
theorem c1_token_key_semantics :
    (∀ t u : Token,
      (tokenEq t u = true ↔
        t.tokenType = u.tokenType ∧ t.lexeme = u.lexeme ∧ t.line = u.line))
    ∧ (∀ t u : Token, t.line ≠ u.line → tokenEq t u = false) := by
  constructor
  · intro t u
    simp [tokenEq, Bool.and_eq_true, beq_iff_eq, and_assoc]
  · intro t u hline
    rcases h : tokenEq t u with _ | _
    · rfl
    · have := (by
        simpa [tokenEq, Bool.and_eq_true, beq_iff_eq, and_assoc] using h :
        t.tokenType = u.tokenType ∧ t.lexeme = u.lexeme ∧ t.line = u.line)
      exact absurd this.2.2 hline

/-- C1 witness: two `a` tokens differing only in the line are distinct
keys. -/
theorem c1_token_key_semantics_witness :
    tokA.line ≠ ({ tokA with line := 2 } : Token).line
    ∧ tokenEq tokA { tokA with line := 2 } = false :=
  ⟨by decide, c1_token_key_semantics.2 tokA { tokA with line := 2 } (by decide)⟩

/-! ## C2 — resolver completeness and the `get_at` panic -/

/-- C2: the single-line program `{var a = 1; {print a;} print a;}` scans,
parses and resolves without any reported error, yet executing it reaches
the not-found `expect` branch of `get_at`: the inner read's recorded
depth (1) was overwritten with 0 by the outer read's equal token key, so
the interpreter looks `a` up in the inner block environment, which does
not bind it.  This contradicts the claim (and the code's own `expect`
message) that those branches are unreachable after error-free
resolution. -/
theorem c2_resolved_program_panics :
    (resolveProgram shadowProgFull).hadError = false
    ∧ (resolveProgram shadowProgFull).errors = []
    ∧ (execS 16 shadowStmt
        (mkInterpState (resolveProgram shadowProgFull).locals)).isPanic = true := by
  refine ⟨by decide, by decide, by decide⟩

/-! ## C3 — value equality -/

/-- C4: for numeric operands of binary `/`, the evaluation raises the
runtime error "Cannot divide by zero." exactly when the right operand
equals 0, and otherwise returns the quotient without error (numbers
modelled as exact rationals). -/
theorem c4_division_by_zero (fuel : Nat) (h : InstHeap) (line : Nat) (l r : Rat) :
    (binaryOpResult fuel h .slash line (.literal (.num l)) (.literal (.num r))
        = .rtErr line "Cannot divide by zero." ↔ r = 0)
    ∧ (r ≠ 0 →
      binaryOpResult fuel h .slash line (.literal (.num l)) (.literal (.num r))
        = .ok (.literal (.num (l / r)))) := by
  by_cases hr : r = 0 <;> simp [binaryOpResult, hr]

/-- C4 witness: `6 / 2` evaluates to `3` without error. -/
theorem c4_division_by_zero_witness :
    (2 : Rat) ≠ 0
    ∧ binaryOpResult 1 [] .slash 7 (.literal (.num 6)) (.literal (.num 2))
        = .ok (.literal (.num 3)) := by
  refine ⟨by norm_num, ?_⟩
  have h := (c4_division_by_zero 1 [] 7 6 2).2 (by norm_num)
  rwa [show (6 : Rat) / 2 = 3 by norm_num] at h

/-! ## C5 — binary `+` -/

/-- C5: binary `+` adds two numbers, concatenates two strings,
stringifies the non-string operand with the very `Display` that `print`
uses when exactly one operand is a string (concatenating in operand
order), and raises "Operands must be two numbers or one must be a
string." for every other operand pair.  The final conjunct shows that
`print` emits `displayObject` of the printed value, i.e. the same
representation used by the mixed `+` cases. -/
theorem c5_plus_semantics (fuel : Nat) (h : InstHeap) (line : Nat) :
    (∀ a b : Rat,
      binaryOpResult fuel h .plus line (.literal (.num a)) (.literal (.num b))
        = .ok (.literal (.num (a + b))))
    ∧ (∀ s t : String,
      binaryOpResult fuel h .plus line (.literal (.str s)) (.literal (.str t))
        = .ok (.literal (.str (s ++ t))))
    ∧ (∀ (s : String) (r : LoxObjectV), isStringObj r = false →
      binaryOpResult fuel h .plus line (.literal (.str s)) r
        = .ok (.literal (.str (s ++ displayObject h r))))
    ∧ (∀ (l : LoxObjectV) (t : String), isStringObj l = false →
      binaryOpResult fuel h .plus line l (.literal (.str t))
        = .ok (.literal (.str (displayObject h l ++ t))))
    ∧ (∀ l r : LoxObjectV, isStringObj l = false → isStringObj r = false →
      ¬(isNumObj l = true ∧ isNumObj r = true) →
      binaryOpResult fuel h .plus line l r
        = .rtErr line "Operands must be two numbers or one must be a string.")
    ∧ (∀ (f : Nat) (e : Expr) (s : InterpState) (v : LoxObjectV) (s₁ : InterpState),
      evalE f e s = .ok v s₁ →
      execS (f + 1) (.print e) s
        = .ok () { s₁ with output := s₁.output ++ [displayObject s₁.instHeap v] }) := by
  refine ⟨?_, ?_, ?_, ?_, ?_, ?_⟩
  · intro a b; simp [binaryOpResult]
  · intro s t; simp [binaryOpResult]
  · intro s r hr
    cases r with
    | literal l => cases l <;> simp_all [binaryOpResult, isStringObj]
    | callable c => simp [binaryOpResult]
    | inst a => simp [binaryOpResult]
  · intro l t hl
    cases l with
    | literal l' => cases l' <;> simp_all [binaryOpResult, isStringObj]
    | callable c => simp [binaryOpResult]
    | inst a => simp [binaryOpResult]
  · intro l r hl hr hn
    cases l with
    | literal l' =>
      cases r with
      | literal r' => cases l' <;> cases r' <;> simp_all [binaryOpResult, isStringObj, isNumObj]
      | callable c => cases l' <;> simp_all [binaryOpResult, isStringObj]
      | inst a => cases l' <;> simp_all [binaryOpResult, isStringObj]
    | callable c =>
      cases r with
      | literal r' => cases r' <;> simp_all [binaryOpResult, isStringObj]
      | callable d => simp [binaryOpResult]
      | inst a => simp [binaryOpResult]
    | inst a =>
      cases r with
      | literal r' => cases r' <;> simp_all [binaryOpResult, isStringObj]
      | callable d => simp [binaryOpResult]
      | inst b => simp [binaryOpResult]
  · intro f e s v s₁ hev
    simp [execS, hev]

/-- C5 witness: `"x" + 2` concatenates `"x"` with the printed form of
`2`; `true + nil` raises the operand error; printing a literal emits its
display form. -/
theorem c5_plus_semantics_witness :
    isStringObj (.literal (.num 2)) = false
    ∧ binaryOpResult 1 [] .plus 3 (.literal (.str "x")) (.literal (.num 2))
        = .ok (.literal (.str ("x" ++ displayObject [] (.literal (.num 2)))))
    ∧ binaryOpResult 1 [] .plus 3 (.literal (.boolean true)) (.literal .nil)
        = .rtErr 3 "Operands must be two numbers or one must be a string."
    ∧ execS 2 (.print (.literal .nil)) (mkInterpState [])
        = .ok () { mkInterpState [] with output := [displayObject [] (.literal .nil)] } := by
  refine ⟨by decide, (c5_plus_semantics 1 [] 3).2.2.1 "x" (.literal (.num 2)) (by decide),
    (c5_plus_semantics 1 [] 3).2.2.2.2.1 (.literal (.boolean true)) (.literal .nil)
      (by decide) (by decide) (by decide), ?_⟩
  have h := (c5_plus_semantics 1 [] 3).2.2.2.2.2 1 (.literal .nil) (mkInterpState [])
    (.literal .nil) (mkInterpState []) rfl
  simpa using h

/-! ## C6 — user-function call outcomes -/

/-- C6: for every call of a user function, normal completion of the body
returns nil — or the `this` bound in the captured environment when the
function is an initializer; a `Return` signal yields the carried value —
discarded in favour of the bound `this` for initializers; and a runtime
error raised in the body propagates unchanged. -/
theorem c6_call_outcomes (ctx : List (String × LoxObjectV)) (thisVal : LoxObjectV)
    (hthis : lookupAssoc ctx "this" = some thisVal) :
    loxFunctionCallResult false ctx (.ok ()) = .ok (.literal .nil)
    ∧ loxFunctionCallResult true ctx (.ok ()) = .ok thisVal
    ∧ (∀ v, loxFunctionCallResult false ctx (.error (.ret v)) = .ok v)
    ∧ (∀ v, loxFunctionCallResult true ctx (.error (.ret v)) = .ok thisVal)
    ∧ (∀ (b : Bool) (line : Nat) (msg : String),
        loxFunctionCallResult b ctx (.error (.runtimeError line msg)) = .rtErr line msg) := by
  refine ⟨rfl, by simp [loxFunctionCallResult, hthis], fun v => rfl,
    fun v => by simp [loxFunctionCallResult, hthis], fun b line msg => by
      cases b <;> simp [loxFunctionCallResult]⟩

/-- C6 witness: instantiated at a context binding `this` to the instance
at address 0. -/
theorem c6_call_outcomes_witness :
    lookupAssoc [("this", LoxObjectV.inst 0)] "this" = some (.inst 0)
    ∧ loxFunctionCallResult true [("this", LoxObjectV.inst 0)] (.ok ()) = .ok (.inst 0)
    ∧ loxFunctionCallResult true [("this", LoxObjectV.inst 0)]
        (.error (.ret (.literal .nil))) = .ok (.inst 0) :=
  ⟨rfl,
    (c6_call_outcomes [("this", LoxObjectV.inst 0)] (.inst 0) rfl).2.1,
    (c6_call_outcomes [("this", LoxObjectV.inst 0)] (.inst 0) rfl).2.2.2.1
      (.literal .nil)⟩

/-! ## C10 — diagnostic formatting -/

/-- C10 counterexample: the static-diagnostic line the code emits has a
space between the line number and the closing bracket, so it never
matches the claimed `[line N] Error <loc>: <message>` shape; and the
driver prints runtime errors with `println!`, i.e. to stdout, not
stderr. -/
theorem c10_format_mismatch :
    reportLine 1 "" "Unexpected character."
        ≠ specStaticLine 1 "" "Unexpected character."
    ∧ runtimeErrorChannel ≠ Channel.stderr := by
  refine ⟨by decide, by decide⟩

/-- C10 (amended): static diagnostics go to stderr as
`[line N ] Error <loc>: <message>` — with a space after the line number,
never matching the claimed shape — while runtime errors are formatted
`[line N] RuntimeError: <message>` but printed to stdout by the
driver. -/
theorem c10_diagnostic_lines :
    (∀ (line : Nat) (loc msg : String),
      reportLine line loc msg
        = "[line " ++ toString line ++ " ] Error " ++ loc ++ ": " ++ msg)
    ∧ (∀ (line : Nat) (loc msg : String),
      reportLine line loc msg ≠ specStaticLine line loc msg)
    ∧ (∀ (line : Nat) (msg : String),
      runtimeErrorLine line msg
        = "[line " ++ toString line ++ "] RuntimeError: " ++ msg)
    ∧ reportChannel = .stderr ∧ runtimeErrorChannel = .stdout := by
  refine ⟨fun line loc msg => rfl, ?_, fun line msg => rfl, rfl, rfl⟩
  intro line loc msg hEq
  have hlen := congrArg String.length hEq
  simp [reportLine, specStaticLine, String.length_append,
    show (" ] Error " : String).length = 9 from rfl,
    show ("] Error " : String).length = 8 from rfl] at hlen

/-- C10 witness: a concrete diagnostic line, and its mismatch with the
claimed shape. -/
theorem c10_diagnostic_lines_witness :
    reportLine 5 "at end" "msg" = "[line 5 ] Error at end: msg"
    ∧ reportLine 5 "at end" "msg" ≠ specStaticLine 5 "at end" "msg" := by
  refine ⟨?_, c10_diagnostic_lines.2.1 5 "at end" "msg"⟩
  have h := c10_diagnostic_lines.1 5 "at end" "msg"
  simpa using h

/-! ## C7 — break discipline -/

/-- Every `Ok` exit of the `visit_while_stmt` loop goes through the
post-loop `self.active_break = false`, so a completed `While` leaves the
flag cleared. -/
theorem whileGo_ok_break_cleared :
    ∀ (fuel : Nat) (c : Expr) (b : Stmt) (s s' : InterpState),
      whileGo fuel c b s = .ok () s' → s'.activeBreak = false := by
  intro fuel
  induction fuel with
  | zero => intro c b s s' h; simp [whileGo] at h
  | succ fuel ih =>
    intro c b s s' h
    cases heval : evalE fuel c s with
    | ok cv s₁ =>
      simp only [whileGo, heval] at h
      by_cases htr : truthy cv = true
      · simp only [htr, if_true] at h
        cases hexec : execS fuel b s₁ with
        | ok u s₂ =>
          simp only [hexec] at h
          by_cases hbr : s₂.activeBreak = true
          · simp only [hbr, if_true] at h
            cases h
            rfl
          · simp only [hbr, if_false, Bool.false_eq_true] at h
            exact ih c b s₂ s' h
        | exn ex s₂ => simp [hexec] at h
        | panicked s₂ => simp [hexec] at h
        | unsupported s₂ => simp [hexec] at h
        | fuelOut => simp [hexec] at h
      · simp only [htr, Bool.false_eq_true, if_false] at h
        cases h
        rfl
    | exn ex s₁ => simp [whileGo, heval] at h
    | panicked s₁ => simp [whileGo, heval] at h
    | unsupported s₁ => simp [whileGo, heval] at h
    | fuelOut => simp [whileGo, heval] at h

/-- C7: executing `break` sets the `active_break` flag and nothing else;
a block executor entered (or continued) with the flag set skips all of
its statements, only restoring the saved environment; any `While`
statement that completes normally leaves `active_break` cleared, so no
statement outside the innermost enclosing loop observes it; and once the
body of a `While` completes with the flag set, that `While` stops
iterating immediately, clearing the flag. -/
theorem c7_break_scope :
    (∀ (fuel : Nat) (s : InterpState),
      execS (fuel + 1) .brk s = .ok () { s with activeBreak := true })
    ∧ (∀ (fuel prev : Nat) (stmts : List Stmt) (s : InterpState),
      s.activeBreak = true →
      execBlockGo (fuel + 1) prev stmts s = .ok () { s with curEnv := prev })
    ∧ (∀ (fuel : Nat) (c : Expr) (b : Stmt) (s s' : InterpState),
      execS fuel (.whileS c b) s = .ok () s' → s'.activeBreak = false)
    ∧ (∀ (fuel : Nat) (c : Expr) (b : Stmt) (s : InterpState) (cv : LoxObjectV)
        (s₁ s₂ : InterpState),
      evalE fuel c s = .ok cv s₁ → truthy cv = true →
      execS fuel b s₁ = .ok () s₂ → s₂.activeBreak = true →
      execS (fuel + 2) (.whileS c b) s = .ok () { s₂ with activeBreak := false }) := by
  refine ⟨fun fuel s => rfl, ?_, ?_, ?_⟩
  · intro fuel prev stmts s hbr
    cases stmts with
    | nil => rfl
    | cons stmt rest => simp [execBlockGo, hbr]
  · intro fuel c b s s' h
    cases fuel with
    | zero => simp [execS] at h
    | succ fuel => exact whileGo_ok_break_cleared fuel c b s s' h
  · intro fuel c b s cv s₁ s₂ heval htr hexec hbr
    show whileGo (fuel + 1) c b s = _
    simp [whileGo, heval, htr, hexec, hbr]

/-- Interpreter state used by the concrete break/environment
scenarios. -/
def demoState : InterpState := mkInterpState []

/-- Model of `demoState` with the break flag set. -/
def demoBreakState : InterpState := { demoState with activeBreak := true }

/-- C7 witness: a concrete `break`, a skipped block, a completed `while`
with a cleared flag, and a one-iteration `while (true) break;`. -/
theorem c7_break_scope_witness :
    execS 1 .brk demoState = .ok () demoBreakState
    ∧ demoBreakState.activeBreak = true
    ∧ execBlockGo 1 0 [.print (.literal .nil)] demoBreakState
        = .ok () { demoBreakState with curEnv := 0 }
    ∧ ({ demoState with activeBreak := false } : InterpState).activeBreak = false
    ∧ execS 3 (.whileS (.literal (.boolean true)) .brk) demoState
        = .ok () { demoBreakState with activeBreak := false } :=
  ⟨c7_break_scope.1 0 demoState, rfl,
    c7_break_scope.2.1 0 0 [.print (.literal .nil)] demoBreakState rfl,
    c7_break_scope.2.2.1 3 (.literal (.boolean false)) .brk demoState
      { demoState with activeBreak := false } rfl,
    c7_break_scope.2.2.2 1 (.literal (.boolean true)) .brk demoState
      (.literal (.boolean true)) demoState demoBreakState rfl rfl rfl rfl⟩

/-! ## C8 — environment restoration by `execute_block` -/

/-- Both the normal and the error exit of the `execute_block` loop set
the interpreter's current environment back to the saved reference,
regardless of what executing the statements did. -/
theorem execBlockGo_restores :
    ∀ (fuel prev : Nat) (stmts : List Stmt) (s : InterpState),
      (∀ (u : Unit) (s' : InterpState),
        execBlockGo fuel prev stmts s = .ok u s' → s'.curEnv = prev)
      ∧ (∀ (ex : LoxExceptionV) (s' : InterpState),
        execBlockGo fuel prev stmts s = .exn ex s' → s'.curEnv = prev) := by
  intro fuel
  induction fuel with
  | zero =>
    intro prev stmts s
    constructor <;> intro x s' h <;> simp [execBlockGo] at h
  | succ fuel ih =>
    intro prev stmts s
    cases stmts with
    | nil =>
      refine ⟨fun x s' h => ?_, fun ex s' h => ?_⟩
      · simp [execBlockGo] at h
        rw [← h]
      · simp [execBlockGo] at h
    | cons stmt rest =>
      by_cases hbr : s.activeBreak = true
      · refine ⟨fun x s' h => ?_, fun ex s' h => ?_⟩
        · simp [execBlockGo, hbr] at h
          rw [← h]
        · simp [execBlockGo, hbr] at h
      · refine ⟨fun x s' h => ?_, fun ex s' h => ?_⟩ <;>
          simp only [execBlockGo, if_neg hbr] at h
        · cases hexec : execS fuel stmt s <;> simp only [hexec] at h
          · exact (ih prev rest _).1 x s' h
          all_goals simp at h
        · cases hexec : execS fuel stmt s <;> simp only [hexec] at h
          · exact (ih prev rest _).2 ex s' h
          · cases h
            rfl
          all_goals simp at h

/-- C8: whatever the outcome of `execute_block` — normal completion or a
propagating `LoxException` (runtime error or `Return` unwind) — the
current-environment reference afterwards is exactly the reference that
was current at entry, and with no statements nothing but that swap
happens, leaving the state unchanged. -/
theorem c8_execute_block_restores_env (fuel : Nat) (stmts : List Stmt)
    (envIdx : Nat) (s : InterpState) :
    (∀ (u : Unit) (s' : InterpState),
      execBlock fuel stmts envIdx s = .ok u s' → s'.curEnv = s.curEnv)
    ∧ (∀ (ex : LoxExceptionV) (s' : InterpState),
      execBlock fuel stmts envIdx s = .exn ex s' → s'.curEnv = s.curEnv)
    ∧ execBlock (fuel + 1) [] envIdx s = .ok () s := by
  refine ⟨?_, ?_, rfl⟩
  · intro u s' h
    exact (execBlockGo_restores fuel s.curEnv stmts { s with curEnv := envIdx }).1 u s' h
  · intro ex s' h
    exact (execBlockGo_restores fuel s.curEnv stmts { s with curEnv := envIdx }).2 ex s' h

/-- C8 witness: running a one-statement block restores the entry
environment reference. -/
theorem c8_execute_block_restores_env_witness :
    execBlock 2 [Stmt.brk] 0 demoState = .ok () demoBreakState
    ∧ demoBreakState.curEnv = demoState.curEnv :=
  ⟨rfl, (c8_execute_block_restores_env 2 [Stmt.brk] 0 demoState).1 () demoBreakState rfl⟩

/-! ## C9 — resolver return rules

The resolver only ever appends diagnostics: the following order and the
monotonicity lemma make that precise, so reported errors survive the rest
of a resolver run. -/

/-- Diagnostic ordering: the error flag and every reported diagnostic of
the first state persist in the second. -/
def ResolverState.le (s₁ s₂ : ResolverState) : Prop :=
  (s₁.hadError = true → s₂.hadError = true) ∧ ∀ e, e ∈ s₁.errors → e ∈ s₂.errors

/-- Model of `le` is reflexive. -/
theorem rle_refl (s : ResolverState) : s.le s :=
  ⟨fun h => h, fun _ hm => hm⟩

/-- Model of `le` is transitive. -/
theorem rle_trans {a b c : ResolverState} (h₁ : a.le b) (h₂ : b.le c) : a.le c :=
  ⟨fun h => h₂.1 (h₁.1 h), fun e hm => h₂.2 e (h₁.2 e hm)⟩

/-- States with identical diagnostics are `le`-related. -/
theorem rle_of_same {s₁ s₂ : ResolverState}
    (hh : s₂.hadError = s₁.hadError) (he : s₂.errors = s₁.errors) : s₁.le s₂ :=
  ⟨fun h => hh.trans h, fun e hm => by rw [he]; exact hm⟩

/-- Model of `resolver_error` preserves old diagnostics while adding one. -/
theorem rle_resolverError (line : Nat) (loc msg : String) (st : ResolverState) :
    st.le (resolverError line loc msg st) :=
  ⟨fun _ => rfl, fun e hm => by simp [resolverError]; exact Or.inl hm⟩

/-- Model of `begin_scope` leaves diagnostics unchanged. -/
theorem rle_beginScope (st : ResolverState) : st.le (beginScope st) :=
  rle_of_same rfl rfl

/-- Model of `end_scope` leaves diagnostics unchanged. -/
theorem rle_endScope (st : ResolverState) : st.le (endScope st) :=
  rle_of_same rfl rfl

/-- Inserting into the current scope leaves diagnostics unchanged. -/
theorem rle_insertCurScope (name : String) (b : Bool) (st : ResolverState) :
    st.le (insertCurScope name b st) := by
  cases h : st.scopes with
  | nil => simp only [insertCurScope, h]; exact rle_refl _
  | cons scope rest => simp only [insertCurScope, h]; exact rle_of_same rfl rfl

/-- Model of `declare` at most adds a diagnostic. -/
theorem rle_declareTok (name : Token) (st : ResolverState) : st.le (declareTok name st) := by
  cases h : st.scopes with
  | nil => simp only [declareTok, h]; exact rle_refl _
  | cons scope rest =>
    simp only [declareTok, h]
    split
    · exact rle_trans (rle_of_same rfl rfl) (rle_resolverError _ _ _ _)
    · exact rle_of_same rfl rfl

/-- Model of `define` leaves diagnostics unchanged. -/
theorem rle_defineTok (name : Token) (st : ResolverState) : st.le (defineTok name st) := by
  cases h : st.scopes with
  | nil => simp only [defineTok, h]; exact rle_refl _
  | cons scope rest =>
    simp only [defineTok, h]
    exact rle_insertCurScope _ _ _

/-- Model of `resolve_local` leaves diagnostics unchanged. -/
theorem rle_resolveLocal (name : Token) (st : ResolverState) : st.le (resolveLocal name st) := by
  unfold resolveLocal
  split
  · exact rle_of_same rfl rfl
  · exact rle_refl _

/-- Updating `current_class` leaves diagnostics unchanged. -/
theorem rle_setCurrentClass (x : ClassType) (st : ResolverState) :
    st.le { st with currentClass := x } :=
  rle_of_same rfl rfl

/-- Updating `current_function` leaves diagnostics unchanged. -/
theorem rle_setCurrentFunction (x : FunctionType) (st : ResolverState) :
    st.le { st with currentFunction := x } :=
  rle_of_same rfl rfl

/-- The parameter declare/define loop of `resolve_function` leaves old
diagnostics in place. -/
theorem rle_declareParams (params : List Token) :
    ∀ st : ResolverState,
      st.le (params.foldl (fun st p => defineTok p (declareTok p st)) st) := by
  induction params with
  | nil => intro st; exact rle_refl _
  | cons p rest ih =>
    intro st
    simp only [List.foldl_cons]
    exact rle_trans (rle_trans (rle_declareTok _ _) (rle_defineTok _ _)) (ih _)

/-- Monotonicity of the whole resolver: resolving anything preserves the
error flag and every already-reported diagnostic. -/
theorem resolve_mono : ∀ fuel : Nat,
    (∀ (e : Expr) (st : ResolverState), st.le (resolveExpr fuel e st))
    ∧ (∀ (es : List Expr) (st : ResolverState), st.le (resolveExprs fuel es st))
    ∧ (∀ (ps : List Token) (body : List Stmt) (ft : FunctionType) (st : ResolverState),
        st.le (resolveFunction fuel ps body ft st))
    ∧ (∀ (ss : List Stmt) (st : ResolverState), st.le (resolveStmts fuel ss st))
    ∧ (∀ (ms : List Stmt) (st : ResolverState), st.le (resolveMethods fuel ms st))
    ∧ (∀ (s : Stmt) (st : ResolverState), st.le (resolveStmt fuel s st)) := by
  intro fuel
  induction fuel with
  | zero =>
    refine ⟨?_, ?_, ?_, ?_, ?_, ?_⟩ <;> intros <;>
      simp only [resolveExpr, resolveExprs, resolveFunction, resolveStmts,
        resolveMethods, resolveStmt] <;> exact rle_refl _
  | succ fuel ih =>
    obtain ⟨ihE, ihEs, ihF, ihSs, ihMs, ihS⟩ := ih
    refine ⟨?_, ?_, ?_, ?_, ?_, ?_⟩
    · intro e st
      cases e with
      | binary l op r =>
        simp only [resolveExpr]
        exact rle_trans (ihE l st) (ihE r _)
      | grouping inner => simp only [resolveExpr]; exact ihE inner st
      | literal v => simp only [resolveExpr]; exact rle_refl _
      | unary op r => simp only [resolveExpr]; exact ihE r st
      | ternary c l r =>
        simp only [resolveExpr]
        exact rle_trans (ihE c st) (rle_trans (ihE l _) (ihE r _))
      | variableE name =>
        simp only [resolveExpr]
        refine rle_trans ?_ (rle_resolveLocal _ _)
        split
        · exact rle_refl _
        · split
          · exact rle_resolverError _ _ _ _
          · exact rle_refl _
      | assign name value =>
        simp only [resolveExpr]
        exact rle_trans (ihE value st) (rle_resolveLocal _ _)
      | logical l op r =>
        simp only [resolveExpr]
        exact rle_trans (ihE l st) (ihE r _)
      | call callee paren args =>
        simp only [resolveExpr]
        exact rle_trans (ihE callee st) (ihEs args _)
      | closure params body => simp only [resolveExpr]; exact ihF params body _ st
      | get obj name => simp only [resolveExpr]; exact ihE obj st
      | set obj name value =>
        simp only [resolveExpr]
        exact rle_trans (ihE value st) (ihE obj _)
      | thisE keyword =>
        simp only [resolveExpr]
        refine rle_trans ?_ (rle_resolveLocal _ _)
        split
        · exact rle_resolverError _ _ _ _
        · exact rle_refl _
      | superE keyword method =>
        simp only [resolveExpr]
        split
        · exact rle_resolverError _ _ _ _
        · exact rle_resolverError _ _ _ _
        · exact rle_resolveLocal _ _
    · intro es st
      cases es with
      | nil => simp only [resolveExprs]; exact rle_refl _
      | cons e rest =>
        simp only [resolveExprs]
        exact rle_trans (ihE e st) (ihEs rest _)
    · intro ps body ft st
      simp only [resolveFunction]
      exact rle_trans (rle_setCurrentFunction _ _)
        (rle_trans (rle_beginScope _)
          (rle_trans (rle_declareParams _ _)
            (rle_trans (ihSs body _)
              (rle_trans (rle_endScope _) (rle_setCurrentFunction _ _)))))
    · intro ss st
      cases ss with
      | nil => simp only [resolveStmts]; exact rle_refl _
      | cons s rest =>
        simp only [resolveStmts]
        exact rle_trans (ihS s st) (ihSs rest _)
    · intro ms st
      cases ms with
      | nil => simp only [resolveMethods]; exact rle_refl _
      | cons m rest =>
        simp only [resolveMethods]
        refine rle_trans ?_ (ihMs rest _)
        split
        · split
          · exact ihF _ _ _ _
          · exact ihF _ _ _ _
        · exact rle_refl _
    · intro s st
      cases s with
      | expression e => simp only [resolveStmt]; exact ihE e st
      | print e => simp only [resolveStmt]; exact ihE e st
      | var name initializer =>
        cases initializer with
        | none =>
          simp only [resolveStmt]
          exact rle_trans (rle_declareTok _ _) (rle_defineTok _ _)
        | some init =>
          simp only [resolveStmt]
          exact rle_trans (rle_declareTok _ _)
            (rle_trans (ihE init _) (rle_defineTok _ _))
      | block statements =>
        simp only [resolveStmt]
        exact rle_trans (rle_beginScope _)
          (rle_trans (ihSs statements _) (rle_endScope _))
      | ifS condition thenBranch elseBranch =>
        cases elseBranch with
        | none =>
          simp only [resolveStmt]
          exact rle_trans (ihE condition st) (ihS thenBranch _)
        | some els =>
          simp only [resolveStmt]
          exact rle_trans (ihE condition st)
            (rle_trans (ihS thenBranch _) (ihS els _))
      | whileS condition body =>
        simp only [resolveStmt]
        exact rle_trans (ihE condition st) (ihS body _)
      | brk => simp only [resolveStmt]; exact rle_refl _
      | function name params body =>
        simp only [resolveStmt]
        exact rle_trans (rle_declareTok _ _)
          (rle_trans (rle_defineTok _ _) (ihF params body _ _))
      | ret keyword value =>
        simp only [resolveStmt]
        by_cases hcf : (st.currentFunction == FunctionType.noneF) = true
        · rw [if_pos hcf]
          refine rle_trans (rle_resolverError keyword.line "at \x27return\x27"
            "Can\x27t return from top-level code." st) ?_
          split
          · split
            · exact rle_refl _
            · split
              · exact rle_resolverError _ _ _ _
              · exact ihE _ _
          · split
            · exact rle_resolverError _ _ _ _
            · exact ihE _ _
        · rw [if_neg hcf]
          split
          · split
            · exact rle_refl _
            · split
              · exact rle_resolverError _ _ _ _
              · exact ihE _ _
          · split
            · exact rle_resolverError _ _ _ _
            · exact ihE _ _
      | classS name superclass methods =>
        cases superclass with
        | none =>
          simp only [resolveStmt, Option.isSome_none, Bool.false_eq_true, if_false]
          exact rle_trans (rle_setCurrentClass _ _)
            (rle_trans (rle_declareTok _ _)
              (rle_trans (rle_defineTok _ _)
                (rle_trans (rle_beginScope _)
                  (rle_trans (rle_insertCurScope _ _ _)
                    (rle_trans (ihMs methods _)
                      (rle_trans (rle_endScope _) (rle_setCurrentClass _ _)))))))
        | some scExpr =>
          simp only [resolveStmt, Option.isSome_some, if_true]
          have hmatch : ∀ stX : ResolverState,
              stX.le (match scExpr with
                | Expr.variableE scName =>
                  if name.lexeme == scName.lexeme then
                    resolverError scName.line ("at \x27" ++ scName.lexeme ++ "\x27")
                      "A class can\x27t inherit from itself" stX
                  else stX
                | _ => stX) := by
            intro stX
            cases scExpr
            case variableE scName =>
              by_cases hn : (name.lexeme == scName.lexeme) = true
              · simp only [hn, if_true]
                exact rle_resolverError _ _ _ _
              · simp only [hn, Bool.false_eq_true, if_false]
                exact rle_refl _
            all_goals exact rle_refl _
          exact rle_trans (rle_setCurrentClass _ _)
            (rle_trans (rle_declareTok _ _)
              (rle_trans (rle_defineTok _ _)
                (rle_trans (hmatch _)
                  (rle_trans (rle_setCurrentClass _ _)
                    (rle_trans (ihE scExpr _)
                      (rle_trans (rle_beginScope _)
                        (rle_trans (rle_insertCurScope _ _ _)
                          (rle_trans (rle_beginScope _)
                            (rle_trans (rle_insertCurScope _ _ _)
                              (rle_trans (ihMs methods _)
                                (rle_trans (rle_endScope _)
                                  (rle_trans (rle_endScope _)
                                    (rle_setCurrentClass _ _)))))))))))))

/-- Does this AST value expression match the resolver's bare-return
guard `Expr::Literal(literal) if literal.value == LoxLiteral::Nil`? -/
def isNilLiteralExpr : Expr → Bool
  | .literal lit => literalEq lit .nil
  | _ => false

/-- The `return` keyword token on line 1. -/
def tokRetKw : Token := { tokenType := .returnT, lexeme := "return", literal := none, line := 1 }

/-- Identifier token `F` on line 1. -/
def tokF : Token := { tokenType := .identifier, lexeme := "F", literal := none, line := 1 }

/-- Identifier token `init` on line 1. -/
def tokInit : Token := { tokenType := .identifier, lexeme := "init", literal := none, line := 1 }

/-- AST of `class F { init() { return nil; } }`, with the return built by
the parser's `return_statement` from an explicit value expression
`nil` — a return statement *with* a value in the source. -/
def c9NilReturnClass : Stmt :=
  .classS tokF none
    [ .function tokInit [] [ returnStatementAst tokRetKw (some (.literal .nil)) ] ]

/-- A program with a top-level `return;` (an error) followed by a block
that declares and reads `a`, used to observe that resolution continues
after the error. -/
def c9ContinueProg : List Stmt :=
  [ returnStatementAst tokRetKw none,
    .block [ .var tokA (some (.literal (.num 1))), .print (.variableE tokA) ] ]

/-- C9 counterexample: the source-level `return nil;` — a return
statement with a value — inside the initializer of `class F` resolves
without any reported error, because the parser desugars the missing
value of a bare `return;` to the same `Literal Nil` AST the explicit
`return nil;` has, and the resolver's bare-return guard matches both. -/
theorem c9_explicit_nil_return_accepted :
    (resolveProgram [c9NilReturnClass]).hadError = false
    ∧ (resolveProgram [c9NilReturnClass]).errors = [] := by
  refine ⟨by decide, by decide⟩

/-- C9 (amended): the resolver reports "Can't return from top-level
code." for every `return` outside any function; inside an initializer it
reports "Can't return a value from an initializer." exactly for return
values that are not the literal `nil` (so both `return;` and
`return nil;` are accepted, the latter being indistinguishable after
parsing); and in each error case resolution continues — the error is
appended and later statements are still resolved. -/
theorem c9_return_rules :
    (∀ (fuel : Nat) (st : ResolverState) (kw : Token) (v : Expr),
      st.currentFunction = .noneF →
      (resolveStmt (fuel + 1) (.ret kw v) st).hadError = true
      ∧ (kw.line, "at \x27return\x27", "Can\x27t return from top-level code.")
          ∈ (resolveStmt (fuel + 1) (.ret kw v) st).errors)
    ∧ (∀ (fuel : Nat) (st : ResolverState) (kw : Token) (v : Expr),
      st.currentFunction = .initializerF → isNilLiteralExpr v = false →
      resolveStmt (fuel + 1) (.ret kw v) st
        = resolverError kw.line "at \x27return"
            "Can\x27t return a value from an initializer." st)
    ∧ (∀ (fuel : Nat) (st : ResolverState) (kw : Token),
      st.currentFunction ≠ .noneF →
      resolveStmt (fuel + 1) (.ret kw (.literal .nil)) st = st)
    ∧ ((resolveProgram c9ContinueProg).hadError = true
      ∧ (1, "at \x27return\x27", "Can\x27t return from top-level code.")
          ∈ (resolveProgram c9ContinueProg).errors
      ∧ lookupLocals (resolveProgram c9ContinueProg).locals tokA = some 0) := by
  refine ⟨?_, ?_, ?_, by decide, by decide, by decide⟩
  · intro fuel st kw v hcf
    have hbeq : (st.currentFunction == FunctionType.noneF) = true := by simp [hcf]
    have hle : (resolverError kw.line "at \x27return\x27"
        "Can\x27t return from top-level code." st).le
          (resolveStmt (fuel + 1) (.ret kw v) st) := by
      simp only [resolveStmt, hbeq, if_true]
      split
      · split
        · exact rle_refl _
        · split
          · exact rle_resolverError _ _ _ _
          · exact (resolve_mono fuel).1 _ _
      · split
        · exact rle_resolverError _ _ _ _
        · exact (resolve_mono fuel).1 _ _
    refine ⟨hle.1 rfl, hle.2 _ ?_⟩
    simp [resolverError]
  · intro fuel st kw v hcf hnil
    have h1 : (st.currentFunction == FunctionType.noneF) = false := by simp [hcf]
    have h2 : (st.currentFunction == FunctionType.initializerF) = true := by simp [hcf]
    cases v
    case literal lit =>
      simp only [isNilLiteralExpr] at hnil
      simp only [resolveStmt, h1, Bool.false_eq_true, if_false, hnil, h2, if_true]
    all_goals simp only [resolveStmt, h1, Bool.false_eq_true, if_false, h2, if_true]
  · intro fuel st kw hcf
    have h1 : (st.currentFunction == FunctionType.noneF) = false := by
      simp only [beq_eq_false_iff_ne, ne_eq]
      exact hcf
    simp only [resolveStmt, h1, Bool.false_eq_true, if_false, literalEq, if_true]

/-- The initializer-context resolver state. -/
def initStateInit : ResolverState :=
  { initResolverState with currentFunction := .initializerF }

/-- C9 witness: a top-level `return 1;` sets the error flag; inside an
initializer, `return 1;` produces exactly the initializer error while
`return nil;` leaves the state untouched. -/
theorem c9_return_rules_witness :
    initResolverState.currentFunction = .noneF
    ∧ (resolveStmt 1 (.ret tokRetKw (.literal (.num 1))) initResolverState).hadError = true
    ∧ initStateInit.currentFunction = .initializerF
    ∧ isNilLiteralExpr (.literal (.num 1)) = false
    ∧ resolveStmt 1 (.ret tokRetKw (.literal (.num 1))) initStateInit
        = resolverError 1 "at \x27return"
            "Can\x27t return a value from an initializer." initStateInit
    ∧ resolveStmt 1 (.ret tokRetKw (.literal .nil)) initStateInit = initStateInit :=
  ⟨rfl,
    (c9_return_rules.1 0 initResolverState tokRetKw (.literal (.num 1)) rfl).1,
    rfl, by decide,
    c9_return_rules.2.1 0 initStateInit tokRetKw (.literal (.num 1)) rfl (by decide),
    c9_return_rules.2.2.1 0 initStateInit tokRetKw (by decide)⟩

end LoxTW
